import Mathlib

/-!
Verification of the contact-management backend's data-access layer
(`src/repository/contacts.py`, `src/repository/users.py`) against its
specification.

The relational store is modelled as a list of rows; each SQLAlchemy query
`db.query(T).filter(p).first()` becomes `List.find?` (first matching row),
`.all()` becomes `List.filter`, in-place ORM mutation of the row returned by
`.first()` becomes replacement of the first matching element, and `db.delete`
of that row becomes removal of the first matching element.  Machine dates are
a plain year/month/day record; `datetime` values are modelled as `Nat`
timestamps.  `NULL`-able columns are `Option` fields, and SQL `=` against a
`NULL` column is `Option` equality against `some` (so a `NULL` never matches,
as in SQL).
-/

/-- A calendar date (`datetime.date`): year, month (1-12), day (1-31). -/
structure DateD where
  year : Nat
  month : Nat
  day : Nat
deriving DecidableEq, Repr

/-- Whether `y` is a Gregorian leap year. -/
def isLeap (y : Nat) : Bool :=
  y % 4 == 0 && (y % 100 != 0 || y % 400 == 0)

/-- Number of days in month `m` of year `y` (months outside 1-12 fall to the
31-day default branch; every result is between 28 and 31). -/
def daysInMonth (y m : Nat) : Nat :=
  if m == 2 then (if isLeap y then 29 else 28)
  else if m == 4 || m == 6 || m == 9 || m == 11 then 30
  else 31

/-- Computes `today + timedelta(days=7)`.  Adding 7 days crosses at most one month
boundary because every month has at least 28 days. -/
def nextWeek (d : DateD) : DateD :=
  if d.day + 7 ≤ daysInMonth d.year d.month then
    ⟨d.year, d.month, d.day + 7⟩
  else if d.month == 12 then
    ⟨d.year + 1, 1, d.day + 7 - daysInMonth d.year d.month⟩
  else
    ⟨d.year, d.month + 1, d.day + 7 - daysInMonth d.year d.month⟩

/-- Row of the `contacts` table (`src/database/models.py`, class `Contacts`).
`description` (no NOT NULL, never set by the input schema), `created_at`
(declared NOT NULL but given no default by the model) and `user_id`
(`default=None`) are nullable at insertion time, hence `Option`. -/
structure Contacts where
  id : Nat
  first_name : String
  last_name : String
  phone_number : String
  born_date : DateD
  email : String
  description : Option String
  created_at : Option Nat
  done : Bool
  user_id : Option Nat
deriving DecidableEq, Repr

/-- Row of the `users` table (`src/database/models.py`, class `User`). -/
structure User where
  id : Nat
  username : String
  email : String
  password : String
  created_at : Option Nat
  avatar : Option String
  refresh_token : Option String
  confirmed : Bool
deriving DecidableEq, Repr

/-- Input schema `ContactsModel` (`src/schemas.py`): exactly the five fields
`first_name`, `last_name`, `email`, `phone_number`, `born_date`; it has no
`description` field. -/
structure ContactsModel where
  first_name : String
  last_name : String
  email : String
  phone_number : String
  born_date : DateD
deriving DecidableEq, Repr

/-- Input schema `ContactsStatusUpdate` (`src/schemas.py`). -/
structure ContactsStatusUpdate where
  done : Bool
deriving DecidableEq, Repr

/-- Input schema `UserModel` (`src/schemas.py`). -/
structure UserModel where
  username : String
  email : String
  password : String
deriving DecidableEq, Repr

/-- The ownership-scoped lookup predicate
`and_(Contacts.id == contact_id, Contacts.user_id == user.id)` used by every
read/update/delete in `src/repository/contacts.py`. -/
def ownedBy (contact_id : Nat) (user : User) (c : Contacts) : Bool :=
  c.id == contact_id && c.user_id == some user.id

/-- Replace the first element satisfying `p` by its image under `f` (ORM
in-place mutation of the row returned by `.first()`). -/
def updateFirst {α : Type} (p : α → Bool) (f : α → α) : List α → List α
  | [] => []
  | a :: rest => if p a then f a :: rest else a :: updateFirst p f rest

/-- Remove the first element satisfying `p` (`db.delete` of the row returned
by `.first()`). -/
def removeFirst {α : Type} (p : α → Bool) : List α → List α
  | [] => []
  | a :: rest => if p a then rest else a :: removeFirst p rest

/-- The database-assigned primary key for a fresh row: one more than the
largest id in the table (fresh, as a sequence/autoincrement would give). -/
def freshId (ids : List Nat) : Nat := ids.foldr max 0 + 1

/-- Embeds `get_contact(contact_id, user, db)`:
`db.query(Contacts).filter(and_(id == contact_id, user_id == user.id)).first()`. -/
def get_contact (contact_id : Nat) (user : User) (db : List Contacts) :
    Option Contacts :=
  db.find? (ownedBy contact_id user)

/-- Embeds `create_contact(body, user, db)`: builds
`Contacts(**body.dict(), user_id=user.id)`, adds and commits it, and returns
the refreshed row.  Column defaults fill the fields the constructor does not
set: `done` defaults to `False`, while `description` and `created_at` get no
value (`created_at` has no default in the `Contacts` model). -/
def create_contact (body : ContactsModel) (user : User) (db : List Contacts) :
    Contacts × List Contacts :=
  let contact : Contacts :=
    { id := freshId (db.map (fun c => c.id))
      first_name := body.first_name
      last_name := body.last_name
      phone_number := body.phone_number
      born_date := body.born_date
      email := body.email
      description := none
      created_at := none
      done := false
      user_id := some user.id }
  (contact, db ++ [contact])

/-- Embeds `update_contact(contact_id, body, user, db)`: ownership-scoped `.first()`;
if found, overwrites `first_name`, `last_name`, `email`, `phone_number`,
`born_date` on that row and commits; returns the row or `None`. -/
def update_contact (contact_id : Nat) (body : ContactsModel) (user : User)
    (db : List Contacts) : Option Contacts × List Contacts :=
  match db.find? (ownedBy contact_id user) with
  | none => (none, db)
  | some c =>
    let c' : Contacts :=
      { c with
        first_name := body.first_name
        last_name := body.last_name
        email := body.email
        phone_number := body.phone_number
        born_date := body.born_date }
    (some c',
     updateFirst (ownedBy contact_id user)
       (fun x =>
         { x with
           first_name := body.first_name
           last_name := body.last_name
           email := body.email
           phone_number := body.phone_number
           born_date := body.born_date }) db)

/-- Embeds `remove_contact(contact_id, user, db)`: ownership-scoped `.first()`; if
found, deletes that row and commits; returns the deleted row or `None`. -/
def remove_contact (contact_id : Nat) (user : User) (db : List Contacts) :
    Option Contacts × List Contacts :=
  match db.find? (ownedBy contact_id user) with
  | none => (none, db)
  | some c => (some c, removeFirst (ownedBy contact_id user) db)

/-- Embeds `update_status_contact(contact_id, body, user, db)`: ownership-scoped
`.first()`; if found, overwrites only `done` and commits; returns the row or
`None`. -/
def update_status_contact (contact_id : Nat) (body : ContactsStatusUpdate)
    (user : User) (db : List Contacts) : Option Contacts × List Contacts :=
  match db.find? (ownedBy contact_id user) with
  | none => (none, db)
  | some c =>
    (some { c with done := body.done },
     updateFirst (ownedBy contact_id user)
       (fun x => { x with done := body.done }) db)

/-- All suffixes of a character list, longest first, ending with `[]`. -/
def suffixes : List Char → List (List Char)
  | [] => [[]]
  | c :: ts => (c :: ts) :: suffixes ts

/-- SQL LIKE pattern matching with case-insensitive literal comparison, the
semantics of `ILIKE`: `%` matches any (possibly empty) sequence — the rest of
the pattern must match some suffix of the text — `_` matches exactly one
character, and any other pattern character matches one text character up to
case. -/
def likeMatch : List Char → List Char → Bool
  | [], t => t.isEmpty
  | p :: ps, t =>
    if p = '%' then (suffixes t).any fun s => likeMatch ps s
    else
      match t with
      | [] => false
      | c :: ts =>
        if p = '_' then likeMatch ps ts
        else (p.toLower == c.toLower) && likeMatch ps ts

/-- Case-insensitive prefix test on character lists. -/
def ciPrefixOf : List Char → List Char → Bool
  | [], _ => true
  | _ :: _, [] => false
  | a :: as, b :: bs => (a.toLower == b.toLower) && ciPrefixOf as bs

/-- Case-insensitive literal containment of `needle` as a contiguous
subsequence of `hay`. -/
def containsSeqCI (needle : List Char) : List Char → Bool
  | [] => needle.isEmpty
  | c :: rest => ciPrefixOf needle (c :: rest) || containsSeqCI needle rest

/-- Specification-side predicate (the spec's words, for comparison with the
code): `hay` case-insensitively contains `q` as a literal substring. -/
def ciContains (hay q : String) : Bool :=
  containsSeqCI q.toList hay.toList

/-- Embeds `column.ilike(f"%{query}%")`: a case-insensitive SQL LIKE match of
the pattern `'%' ++ query ++ '%'` against the column.  The code applies no
escaping, so `%` and `_` characters inside the query act as SQL wildcards. -/
def ilikeContains (hay q : String) : Bool :=
  likeMatch ('%' :: q.toList ++ ['%']) hay.toList

/-- Embeds `search_contacts(db, query, user)`: `if not query: return []` (a
Python `str` is falsy exactly when empty), else the owner's rows where
`first_name`, `last_name` or `email` matches `ilike(f"%{query}%")`. -/
def search_contacts (db : List Contacts) (query : String) (user : User) :
    List Contacts :=
  if query = "" then []
  else
    (db.filter (fun c => c.user_id == some user.id)).filter
      (fun c =>
        ilikeContains c.first_name query || ilikeContains c.last_name query ||
          ilikeContains c.email query)

/-- Embeds `get_contacts_with_birthdays(db, user)`: with `today = date.today()` and
`next_week = today + timedelta(days=7)`, the owner's rows with
`extract(month, born_date) == today.month`,
`extract(day, born_date) >= today.day` and
`extract(day, born_date) <= next_week.day`.  `today` is passed explicitly. -/
def get_contacts_with_birthdays (db : List Contacts) (user : User)
    (today : DateD) : List Contacts :=
  (db.filter (fun c => c.user_id == some user.id)).filter
    (fun c =>
      c.born_date.month == today.month &&
        decide (today.day ≤ c.born_date.day) &&
        decide (c.born_date.day ≤ (nextWeek today).day))

/-- Embeds `get_user_by_email(email, db)`:
`db.query(User).filter(User.email == email).first()`. -/
def get_user_by_email (email : String) (db : List User) : Option User :=
  db.find? (fun u => u.email == email)

/-- Embeds `create_user(body, db)`: `avatar = None`; `try: avatar =
Gravatar(body.email).get_image() except Exception as e: print(e)`; then
`User(**body.dict(), avatar=avatar)` is added and committed.  The gravatar
collaborator is a parameter that either returns a URL or fails; its failure
is swallowed and leaves `avatar = None`.  Column defaults: `created_at`
defaults to `func.now()` (the `now` parameter), `confirmed` to `False`;
`refresh_token` is not set. -/
def create_user (body : UserModel) (db : List User) (now : Nat)
    (gravatar : String → Except String String) : User × List User :=
  let avatar : Option String :=
    match gravatar body.email with
    | Except.ok url => some url
    | Except.error _ => none
  let new_user : User :=
    { id := freshId (db.map (fun u => u.id))
      username := body.username
      email := body.email
      password := body.password
      created_at := some now
      avatar := avatar
      refresh_token := none
      confirmed := false }
  (new_user, db ++ [new_user])

/-- The runtime error `confirmed_email` can raise.  `attributeErrorNone` is
Python's `AttributeError` from evaluating `user.confirmed = True` when
`get_user_by_email` returned `None`; `notFound` is a distinct NotFound-class
error (present only for comparison with the specification — the code never
raises it). -/
inductive PyExc
  | attributeErrorNone
  | notFound
deriving DecidableEq, Repr

/-- Embeds `confirmed_email(email, db)`: `user = get_user_by_email(email, db);
user.confirmed = True; db.commit()`.  When the lookup misses, the attribute
assignment on `None` raises `AttributeError` before any commit; otherwise the
first row with that email has `confirmed` set to `True`. -/
def confirmed_email (email : String) (db : List User) :
    Except PyExc (List User) :=
  match get_user_by_email email db with
  | none => Except.error PyExc.attributeErrorNone
  | some _ =>
    Except.ok
      (updateFirst (fun u => u.email == email)
        (fun u => { u with confirmed := true }) db)

/-! ## Helper lemmas -/

/-- Running `find?` over a list whose first match is `c`: everything before `c` fails
the predicate, so `find?` returns `c`. -/
theorem find?_append_of_first {α : Type} {p : α → Bool} {c : α}
    (pre post : List α) (hpre : ∀ x ∈ pre, p x = false) (hc : p c = true) :
    List.find? p (pre ++ c :: post) = some c := by
  induction pre with
  | nil => simpa using List.find?_cons_of_pos post hc
  | cons a as ih =>
    have ha : p a = false := hpre a (by simp)
    rw [List.cons_append, List.find?_cons_of_neg _ (by simp [ha])]
    exact ih fun x hx => hpre x (by simp [hx])

/-- Running `updateFirst` over a list whose first match is `c` rewrites exactly `c`. -/
theorem updateFirst_append_of_first {α : Type} {p : α → Bool} {f : α → α}
    {c : α} (pre post : List α) (hpre : ∀ x ∈ pre, p x = false)
    (hc : p c = true) :
    updateFirst p f (pre ++ c :: post) = pre ++ f c :: post := by
  induction pre with
  | nil => simp [updateFirst, hc]
  | cons a as ih =>
    have ha : p a = false := hpre a (by simp)
    simp [updateFirst, ha, ih fun x hx => hpre x (by simp [hx])]

/-- Running `removeFirst` over a list whose first match is `c` removes exactly `c`. -/
theorem removeFirst_append_of_first {α : Type} {p : α → Bool} {c : α}
    (pre post : List α) (hpre : ∀ x ∈ pre, p x = false) (hc : p c = true) :
    removeFirst p (pre ++ c :: post) = pre ++ post := by
  induction pre with
  | nil => simp [removeFirst, hc]
  | cons a as ih =>
    have ha : p a = false := hpre a (by simp)
    simp [removeFirst, ha, ih fun x hx => hpre x (by simp [hx])]

/-- Every month has at least 28 days. -/
theorem daysInMonth_ge (y m : Nat) : 28 ≤ daysInMonth y m := by
  unfold daysInMonth
  split
  · split <;> omega
  · split <;> omega

/-- The suffix list of every text contains the empty suffix, so the pattern
consisting of a single `%` scans to a match on any text. -/
theorem suffixes_any_isEmpty (t : List Char) :
    ((suffixes t).any fun s => List.isEmpty s) = true := by
  induction t with
  | nil => rfl
  | cons c ts ih => simp [suffixes, List.any_cons, ih]

/-- A lone `%` pattern matches every text. -/
theorem likeMatch_percent (t : List Char) : likeMatch ['%'] t = true := by
  have hfun : (fun s => likeMatch ([] : List Char) s) =
      fun s : List Char => List.isEmpty s := funext fun s => rfl
  rw [show likeMatch ['%'] t = (suffixes t).any fun s => likeMatch [] s from by
    simp [likeMatch], hfun]
  exact suffixes_any_isEmpty t

/-- A wildcard-free literal pattern followed by `%` matches exactly the texts
that start with the literal, up to case. -/
theorem likeMatch_literal_percent (qs : List Char)
    (hq : (qs.all fun ch => ch != '%' && ch != '_') = true) (t : List Char) :
    likeMatch (qs ++ ['%']) t = ciPrefixOf qs t := by
  induction qs generalizing t with
  | nil => simp [ciPrefixOf, likeMatch_percent t]
  | cons a as ih =>
    rw [List.all_cons, Bool.and_eq_true] at hq
    have ha : a ≠ '%' ∧ a ≠ '_' := by simpa using hq.1
    cases t with
    | nil => simp [likeMatch, ciPrefixOf, ha.1]
    | cons c ts => simp [likeMatch, ciPrefixOf, ha.1, ha.2, ih hq.2 ts]

/-- Scanning the case-insensitive prefix test over all suffixes of a text is
the case-insensitive containment test. -/
theorem suffixes_any_ciPrefix (qs t : List Char) :
    ((suffixes t).any fun s => ciPrefixOf qs s) = containsSeqCI qs t := by
  induction t with
  | nil => cases qs <;> rfl
  | cons c ts ih => simp [suffixes, containsSeqCI, List.any_cons, ih]

/-- For a wildcard-free query `qs`, the LIKE pattern `%qs%` matches exactly
the texts that case-insensitively contain `qs` as a literal substring. -/
theorem likeMatch_wildcard_free (qs : List Char)
    (hq : (qs.all fun ch => ch != '%' && ch != '_') = true) (t : List Char) :
    likeMatch ('%' :: qs ++ ['%']) t = containsSeqCI qs t := by
  have hfun : (fun s => likeMatch (qs ++ ['%']) s) =
      fun s => ciPrefixOf qs s :=
    funext fun s => likeMatch_literal_percent qs hq s
  rw [show likeMatch ('%' :: qs ++ ['%']) t =
      (suffixes t).any fun s => likeMatch (qs ++ ['%']) s from by
    simp [likeMatch], hfun]
  exact suffixes_any_ciPrefix qs t

/-! ## Sample rows used by witnesses, counterexamples and concrete
evaluations -/

/-- Sample owner with id 1. -/
def userA : User :=
  { id := 1, username := "alice", email := "alice@example.com",
    password := "secret-a", created_at := some 0, avatar := none,
    refresh_token := none, confirmed := false }

/-- Sample second owner with id 2. -/
def userB : User :=
  { id := 2, username := "bobby", email := "bob@example.com",
    password := "secret-b", created_at := some 0, avatar := none,
    refresh_token := none, confirmed := false }

/-- Sample input fields. -/
def bodyA : ContactsModel :=
  { first_name := "Ann", last_name := "Lee", email := "ann@example.com",
    phone_number := "12345", born_date := ⟨1990, 5, 10⟩ }

/-- Sample contact with id 1 owned by `userA`. -/
def cA : Contacts :=
  { id := 1, first_name := "Ann", last_name := "Lee",
    phone_number := "12345", born_date := ⟨1990, 5, 10⟩,
    email := "ann@example.com", description := none, created_at := some 5,
    done := false, user_id := some userA.id }

/-- Sample contact with id 2 owned by `userB`. -/
def cB : Contacts :=
  { id := 2, first_name := "Bea", last_name := "Kim",
    phone_number := "67890", born_date := ⟨1985, 7, 20⟩,
    email := "bea@example.com", description := some "friend",
    created_at := some 9, done := false, user_id := some userB.id }

/-- Sample status-update body. -/
def stTrue : ContactsStatusUpdate := { done := true }

/-- Sample contact of `userA` born January 30. -/
def cJan30 : Contacts :=
  { id := 3, first_name := "Jan", last_name := "Eve",
    phone_number := "11111", born_date := ⟨1990, 1, 30⟩,
    email := "jan@example.com", description := none, created_at := some 7,
    done := false, user_id := some userA.id }

/-- Sample contact of `userA` born May 12. -/
def cMay12 : Contacts :=
  { id := 4, first_name := "May", last_name := "Liu",
    phone_number := "22222", born_date := ⟨1990, 5, 12⟩,
    email := "may@example.com", description := none, created_at := some 8,
    done := false, user_id := some userA.id }

/-- Sample contact of `userA` whose first name "abc" matches the LIKE
pattern of the wildcard query "a_c" without containing it literally. -/
def cWild : Contacts :=
  { id := 5, first_name := "abc", last_name := "Smith",
    phone_number := "33333", born_date := ⟨1992, 3, 3⟩,
    email := "w@x.io", description := none, created_at := some 11,
    done := false, user_id := some userA.id }

/-! ## Claim theorems -/

/-- C1: Ownership isolation.  For distinct owners `A ≠ B` and a contact `c`
owned by `A` in a store with unique primary keys, the ownership-scoped
lookups `get`, `update`, `update_status` and `delete` invoked by `B` on
`c.id` all return absent and leave the store (hence `c`) unchanged. -/
theorem contacts_ownership_isolation (db : List Contacts) (A B : User)
    (c : Contacts) (body : ContactsModel) (st : ContactsStatusUpdate)
    (hmem : c ∈ db) (hown : c.user_id = some A.id) (hne : B.id ≠ A.id)
    (hids : (db.map (fun x => x.id)).Nodup) :
    get_contact c.id B db = none ∧
    update_contact c.id body B db = (none, db) ∧
    update_status_contact c.id st B db = (none, db) ∧
    remove_contact c.id B db = (none, db) := by
  have hnone : db.find? (ownedBy c.id B) = none := by
    rw [List.find?_eq_none]
    intro x hx
    unfold ownedBy
    simp only [Bool.and_eq_true, beq_iff_eq, not_and]
    intro hid huid
    have hxc : x = c := List.inj_on_of_nodup_map hids hx hmem hid
    rw [hxc, hown] at huid
    exact hne (Option.some_injective _ huid).symm
  exact ⟨hnone, by simp [update_contact, hnone],
    by simp [update_status_contact, hnone], by simp [remove_contact, hnone]⟩

/-- C1 witness: `userB` cannot see or touch `userA`'s contact `cA`. -/
theorem contacts_ownership_isolation_witness :
    get_contact cA.id userB [cA] = none ∧
    update_contact cA.id bodyA userB [cA] = (none, [cA]) ∧
    update_status_contact cA.id stTrue userB [cA] = (none, [cA]) ∧
    remove_contact cA.id userB [cA] = (none, [cA]) :=
  contacts_ownership_isolation [cA] userA userB cA bodyA stTrue (by decide)
    (by decide) (by decide) (by decide)

/-- C2 (code bug): evaluating `create_contact` on an empty store.  The five
schema fields, `done = false` and the owner id are persisted and a subsequent
`get` by the same owner returns the stored record; but the stored
`created_at` is `none` — the `Contacts` model declares `created_at` NOT NULL
yet gives it no default and `create_contact` never sets it, so nothing equal
to "the current time" is stored — and the stored `description` is `none`:
the input schema `ContactsModel` has no `description` field at all. -/
theorem create_contact_stored_record :
    (create_contact bodyA userA []).1.created_at = none ∧
    (create_contact bodyA userA []).1.description = none ∧
    (create_contact bodyA userA []).1.first_name = bodyA.first_name ∧
    (create_contact bodyA userA []).1.last_name = bodyA.last_name ∧
    (create_contact bodyA userA []).1.email = bodyA.email ∧
    (create_contact bodyA userA []).1.phone_number = bodyA.phone_number ∧
    (create_contact bodyA userA []).1.born_date = bodyA.born_date ∧
    (create_contact bodyA userA []).1.done = false ∧
    (create_contact bodyA userA []).1.user_id = some userA.id ∧
    get_contact (create_contact bodyA userA []).1.id userA
        (create_contact bodyA userA []).2 =
      some (create_contact bodyA userA []).1 := by
  decide

/-- C5: Update atomicity on miss.  When no contact matches the
(contact_id, owner) pair, `update_contact` returns absent and the store is
unchanged. -/
theorem update_contact_miss_no_mutation (contact_id : Nat)
    (body : ContactsModel) (user : User) (db : List Contacts)
    (h : ∀ x ∈ db, ownedBy contact_id user x = false) :
    update_contact contact_id body user db = (none, db) := by
  have hnone : db.find? (ownedBy contact_id user) = none := by
    rw [List.find?_eq_none]
    intro x hx
    simp [h x hx]
  simp [update_contact, hnone]

/-- C5 witness: updating the missing id 2 in `userA`'s store of one contact
mutates nothing. -/
theorem update_contact_miss_no_mutation_witness :
    update_contact 2 bodyA userA [cA] = (none, [cA]) :=
  update_contact_miss_no_mutation 2 bodyA userA [cA] (by decide)

/-- C6: Status-update frame.  On a store whose first (and, with unique ids,
only) match for the (contact_id, owner) pair is `c`, `update_status_contact`
returns the record with `done` overwritten and replaces exactly that record
in place; every other stored contact is untouched, and the updated record
agrees with `c` on every field other than `done`. -/
theorem update_status_contact_frame (contact_id : Nat)
    (body : ContactsStatusUpdate) (user : User) (pre post : List Contacts)
    (c : Contacts) (hpre : ∀ x ∈ pre, ownedBy contact_id user x = false)
    (hc : ownedBy contact_id user c = true) :
    update_status_contact contact_id body user (pre ++ c :: post) =
      (some { c with done := body.done },
        pre ++ { c with done := body.done } :: post) ∧
    ({ c with done := body.done } : Contacts).done = body.done ∧
    ({ c with done := body.done } : Contacts).id = c.id ∧
    ({ c with done := body.done } : Contacts).first_name = c.first_name ∧
    ({ c with done := body.done } : Contacts).last_name = c.last_name ∧
    ({ c with done := body.done } : Contacts).email = c.email ∧
    ({ c with done := body.done } : Contacts).phone_number = c.phone_number ∧
    ({ c with done := body.done } : Contacts).born_date = c.born_date ∧
    ({ c with done := body.done } : Contacts).description = c.description ∧
    ({ c with done := body.done } : Contacts).created_at = c.created_at ∧
    ({ c with done := body.done } : Contacts).user_id = c.user_id := by
  have hfind := find?_append_of_first pre post hpre hc
  have hupd := updateFirst_append_of_first (f := fun x => { x with done := body.done })
    pre post hpre hc
  exact ⟨by simp [update_status_contact, hfind, hupd], rfl, rfl, rfl, rfl,
    rfl, rfl, rfl, rfl, rfl, rfl⟩

/-- C6 witness: flipping `done` on `cB` in the store `[cA, cB]` rewrites only
`cB`'s `done` field. -/
theorem update_status_contact_frame_witness :
    update_status_contact 2 stTrue userB ([cA] ++ cB :: []) =
      (some { cB with done := stTrue.done },
        [cA] ++ { cB with done := stTrue.done } :: []) ∧
    ({ cB with done := stTrue.done } : Contacts).done = stTrue.done ∧
    ({ cB with done := stTrue.done } : Contacts).id = cB.id ∧
    ({ cB with done := stTrue.done } : Contacts).first_name = cB.first_name ∧
    ({ cB with done := stTrue.done } : Contacts).last_name = cB.last_name ∧
    ({ cB with done := stTrue.done } : Contacts).email = cB.email ∧
    ({ cB with done := stTrue.done } : Contacts).phone_number = cB.phone_number ∧
    ({ cB with done := stTrue.done } : Contacts).born_date = cB.born_date ∧
    ({ cB with done := stTrue.done } : Contacts).description = cB.description ∧
    ({ cB with done := stTrue.done } : Contacts).created_at = cB.created_at ∧
    ({ cB with done := stTrue.done } : Contacts).user_id = cB.user_id :=
  update_status_contact_frame 2 stTrue userB [cA] [] cB (by decide) (by decide)

/-- C7: Delete idempotence in effect.  With unique primary keys, the first
`remove_contact` on the (contact_id, owner) pair returns the removed record's
prior state and removes exactly it; the second `remove_contact` on the
resulting store returns absent and changes nothing. -/
theorem remove_contact_twice (contact_id : Nat) (user : User)
    (pre post : List Contacts) (c : Contacts)
    (hpre : ∀ x ∈ pre, ownedBy contact_id user x = false)
    (hc : ownedBy contact_id user c = true)
    (hids : ((pre ++ c :: post).map (fun x => x.id)).Nodup) :
    remove_contact contact_id user (pre ++ c :: post) = (some c, pre ++ post) ∧
    remove_contact contact_id user (pre ++ post) = (none, pre ++ post) := by
  have hfind := find?_append_of_first pre post hpre hc
  have hrem := removeFirst_append_of_first pre post hpre hc
  have hcid : c.id = contact_id := by
    unfold ownedBy at hc
    simp only [Bool.and_eq_true, beq_iff_eq] at hc
    exact hc.1
  have hnotin : c.id ∉ post.map (fun x => x.id) := by
    rw [List.map_append] at hids
    have h2 := hids.of_append_right
    rw [List.map_cons, List.nodup_cons] at h2
    exact h2.1
  have hnone : (pre ++ post).find? (ownedBy contact_id user) = none := by
    rw [List.find?_eq_none]
    intro x hx
    rcases List.mem_append.mp hx with hx' | hx'
    · simp [hpre x hx']
    · intro hpx
      unfold ownedBy at hpx
      simp only [Bool.and_eq_true, beq_iff_eq] at hpx
      exact hnotin (List.mem_map.mpr ⟨x, hx', by rw [hpx.1, hcid]⟩)
  exact ⟨by simp [remove_contact, hfind, hrem],
    by simp [remove_contact, hnone]⟩

/-- C7 witness: deleting contact 2 from `[cA, cB]` returns `cB` and removes
it; deleting it again returns absent and changes nothing. -/
theorem remove_contact_twice_witness :
    remove_contact 2 userB ([cA] ++ cB :: []) = (some cB, [cA] ++ []) ∧
    remove_contact 2 userB ([cA] ++ []) = (none, [cA] ++ []) :=
  remove_contact_twice 2 userB [cA] [] cB (by decide) (by decide) (by decide)

/-- C3 counterexample: with today = January 28 (a 31-day month), `userA`'s
contact born January 30 is born in the current month with day-of-month
between today's day (28) and today's day + 7 (35), so the claim includes it;
yet `get_contacts_with_birthdays` returns the empty list, because the code's
upper bound is the day-of-month of `today + 7 days` = February 4, i.e. 4. -/
theorem birthdays_claimed_window_counterexample :
    cJan30.user_id = some userA.id ∧
    cJan30.born_date.month = (⟨2023, 1, 28⟩ : DateD).month ∧
    (⟨2023, 1, 28⟩ : DateD).day ≤ cJan30.born_date.day ∧
    cJan30.born_date.day ≤ (⟨2023, 1, 28⟩ : DateD).day + 7 ∧
    get_contacts_with_birthdays [cJan30] userA ⟨2023, 1, 28⟩ = [] := by
  decide

/-- C3 amended: provided today's day + 7 does not exceed the length of the
current month, `get_contacts_with_birthdays` returns exactly the owner's
contacts born in the current calendar month with day-of-month between
today's day and today's day + 7, inclusive, ignoring the birth year. -/
theorem birthdays_window_within_month (db : List Contacts) (u : User)
    (today : DateD) (c : Contacts)
    (h : today.day + 7 ≤ daysInMonth today.year today.month) :
    c ∈ get_contacts_with_birthdays db u today ↔
      c ∈ db ∧ c.user_id = some u.id ∧ c.born_date.month = today.month ∧
        today.day ≤ c.born_date.day ∧ c.born_date.day ≤ today.day + 7 := by
  have hnw : nextWeek today = ⟨today.year, today.month, today.day + 7⟩ := by
    unfold nextWeek
    rw [if_pos h]
  unfold get_contacts_with_birthdays
  rw [hnw]
  simp only [List.mem_filter, Bool.and_eq_true, beq_iff_eq,
    decide_eq_true_eq, and_assoc]

/-- C3 witness: with today = May 10, `userA`'s contact born May 12 is in the
window and is returned. -/
theorem birthdays_window_within_month_witness :
    cMay12 ∈ get_contacts_with_birthdays [cMay12] userA ⟨2023, 5, 10⟩ ↔
      cMay12 ∈ [cMay12] ∧ cMay12.user_id = some userA.id ∧
        cMay12.born_date.month = (⟨2023, 5, 10⟩ : DateD).month ∧
        (⟨2023, 5, 10⟩ : DateD).day ≤ cMay12.born_date.day ∧
        cMay12.born_date.day ≤ (⟨2023, 5, 10⟩ : DateD).day + 7 :=
  birthdays_window_within_month [cMay12] userA ⟨2023, 5, 10⟩ cMay12 (by decide)

/-- C10: Month-boundary collapse.  Whenever today's day + 7 exceeds the
length of the current month (today is a valid day of that month), the two
day bounds of the filter cross — the upper bound becomes the day-of-month of
a date in the next month, at most 7, while the lower bound is at least 22 —
so `get_contacts_with_birthdays` returns the empty sequence on every store. -/
theorem birthdays_month_rollover_empty (db : List Contacts) (u : User)
    (today : DateD)
    (hvalid : today.day ≤ daysInMonth today.year today.month)
    (hroll : daysInMonth today.year today.month < today.day + 7) :
    get_contacts_with_birthdays db u today = [] := by
  have h28 := daysInMonth_ge today.year today.month
  have hnw : (nextWeek today).day =
      today.day + 7 - daysInMonth today.year today.month := by
    unfold nextWeek
    rw [if_neg (by omega)]
    split <;> rfl
  unfold get_contacts_with_birthdays
  rw [List.filter_eq_nil_iff]
  intro c hc
  simp only [Bool.and_eq_true, beq_iff_eq, decide_eq_true_eq]
  intro hcontra
  rw [hnw] at hcontra
  omega

/-- C10 witness: with today = January 28, `userA`'s contact born January 30
— still two days ahead inside the same month — is not returned. -/
theorem birthdays_month_rollover_empty_witness :
    get_contacts_with_birthdays [cJan30] userA ⟨2023, 1, 28⟩ = [] :=
  birthdays_month_rollover_empty [cJan30] userA ⟨2023, 1, 28⟩ (by decide)
    (by decide)

/-- C4 counterexample: the code passes the query into the LIKE pattern with
no escaping, so `_` in the query "a_c" matches any single character: the
search returns `userA`'s contact with first name "abc", although none of its
three fields case-insensitively contains the string "a_c" as a literal
substring — refuting the claim that exactly the literally-containing
contacts are returned. -/
theorem search_contacts_wildcard_counterexample :
    search_contacts [cWild] "a_c" userA = [cWild] ∧
    ciContains cWild.first_name "a_c" = false ∧
    ciContains cWild.last_name "a_c" = false ∧
    ciContains cWild.email "a_c" = false := by
  decide

/-- C4 amended: an empty query returns the empty sequence even on a
non-empty store; a non-empty query returns exactly the owner's contacts —
never another owner's — where `first_name`, `last_name` or `email` matches
the unescaped case-insensitive SQL LIKE pattern `%query%` (logical OR across
the three fields).  When the query contains no SQL wildcard character (`%`
or `_`) this LIKE match coincides with case-insensitive literal substring
containment, recovering the claim's reading for wildcard-free queries. -/
theorem search_contacts_semantics (db : List Contacts) (q : String)
    (u : User) (c : Contacts) :
    (c ∈ search_contacts db q u ↔
      q ≠ "" ∧ c ∈ db ∧ c.user_id = some u.id ∧
        (ilikeContains c.first_name q = true ∨
          ilikeContains c.last_name q = true ∨
          ilikeContains c.email q = true)) ∧
    ((q.toList.all fun ch => ch != '%' && ch != '_') = true →
      ∀ hay : String, ilikeContains hay q = ciContains hay q) := by
  constructor
  · unfold search_contacts
    by_cases hq : q = ""
    · simp [hq]
    · rw [if_neg hq]
      simp only [List.mem_filter, Bool.or_eq_true, beq_iff_eq, ne_eq, hq,
        not_false_eq_true, true_and, and_assoc]
      tauto
  · intro hqw hay
    exact likeMatch_wildcard_free q.toList hqw hay.toList

/-- C8 counterexample: confirming an email with no matching user does fail
loudly, but the error the code raises is the `AttributeError` from assigning
`confirmed` on the absent (`None`) lookup result — not a distinct
NotFound-class error. -/
theorem confirmed_email_error_not_notfound :
    confirmed_email "nobody@example.com" [] =
      Except.error PyExc.attributeErrorNone ∧
    confirmed_email "nobody@example.com" [] ≠
      Except.error PyExc.notFound := by
  refine ⟨rfl, ?_⟩
  simp [confirmed_email, get_user_by_email]

/-- C8 amended: if a user with the given email exists, `confirmed_email`
sets that user's `confirmed` flag to true (and touches nothing else); if no
such user exists it raises an error — the `AttributeError` from attribute
assignment on the absent lookup result, not a distinct NotFound-class error —
rather than silently succeeding or silently doing nothing. -/
theorem confirmed_email_semantics (email : String) (pre post : List User)
    (u : User) (dbMiss : List User)
    (hpre : ∀ x ∈ pre, (x.email == email) = false)
    (hu : (u.email == email) = true)
    (hmiss : ∀ x ∈ dbMiss, (x.email == email) = false) :
    confirmed_email email (pre ++ u :: post) =
      Except.ok (pre ++ { u with confirmed := true } :: post) ∧
    ({ u with confirmed := true } : User).confirmed = true ∧
    ({ u with confirmed := true } : User).id = u.id ∧
    ({ u with confirmed := true } : User).email = u.email ∧
    confirmed_email email dbMiss = Except.error PyExc.attributeErrorNone := by
  have hfind := find?_append_of_first (p := fun x : User => x.email == email)
    pre post hpre hu
  have hupd := updateFirst_append_of_first
    (f := fun x : User => { x with confirmed := true }) pre post hpre hu
  have hnone : dbMiss.find? (fun x : User => x.email == email) = none := by
    rw [List.find?_eq_none]
    intro x hx
    simp [hmiss x hx]
  exact ⟨by simp [confirmed_email, get_user_by_email, hfind, hupd], rfl, rfl,
    rfl, by simp [confirmed_email, get_user_by_email, hnone]⟩

/-- C8 witness: confirming `userA`'s email in `[userB, userA]` flips only
`userA.confirmed`; confirming it against an empty store raises. -/
theorem confirmed_email_semantics_witness :
    confirmed_email "alice@example.com" ([userB] ++ userA :: []) =
      Except.ok ([userB] ++ { userA with confirmed := true } :: []) ∧
    ({ userA with confirmed := true } : User).confirmed = true ∧
    ({ userA with confirmed := true } : User).id = userA.id ∧
    ({ userA with confirmed := true } : User).email = userA.email ∧
    confirmed_email "alice@example.com" [] =
      Except.error PyExc.attributeErrorNone :=
  confirmed_email_semantics "alice@example.com" [userB] [] userA []
    (by decide) (by decide) (by decide)

/-- C9: User creation is avatar-failure tolerant.  For every behaviour of
the gravatar collaborator, `create_user` succeeds and persists a new user
with `confirmed = false`, `refresh_token` absent, the given username and
email, and `avatar` equal to the collaborator's returned URL when it
returns one and absent when it fails — the failure is swallowed, never
propagated (the operation is total and appends the record regardless). -/
theorem create_user_avatar_best_effort (body : UserModel) (db : List User)
    (now : Nat) (gravatar : String → Except String String) :
    (create_user body db now gravatar).1.confirmed = false ∧
    (create_user body db now gravatar).1.refresh_token = none ∧
    (create_user body db now gravatar).1.username = body.username ∧
    (create_user body db now gravatar).1.email = body.email ∧
    (create_user body db now gravatar).1.password = body.password ∧
    (create_user body db now gravatar).1.avatar =
      (match gravatar body.email with
       | Except.ok url => some url
       | Except.error _ => none) ∧
    (create_user body db now gravatar).2 =
      db ++ [(create_user body db now gravatar).1] := by
  exact ⟨rfl, rfl, rfl, rfl, rfl, rfl, rfl⟩
